import Mathlib

/-!
Verification of the dvbcss-clocks library (bbc/dvbcss-clocks).

Shallow embedding of the clock classes in src/src/:
* `Correlation`      — src/src/Correlation.js (immutable 4-tuple, butWith)
* `CorrelatedClock`  — src/src/main.js, CorrelatedClock (the documented 2017
  variant): a flat view of one clock against its parent tick rate, holding
  the private fields freq, speed, corr and the parent tick rate.
* `DateNowClock`     — src/src/DateNowClock.js (constructor guard only).
* Availability       — src/src/ClockBase.js, setAvailabilityFlag (the
  documented variant at lines 307-323, which emits only availability events).
* Timers             — src/src/ClockBase.js, setAtTime / _rescheduleTimers.
* `Clock`            — an inductive hierarchy (root / correlated / offset
  nodes) for the ancestry-walking algorithms getAncestry, getRoot,
  toOtherClockTime and for OffsetClock.now.

Numbers are modelled as exact rationals; the JavaScript NaN sentinel is
modelled as `Option.none`, and the infinite results of the quantify
operations by the dedicated type `JVal`.
-/

namespace DvbcssClocks

/-- Errors thrown by the library (JS throws strings; we name them). -/
inductive ClockError where
  /-- "Cannot have tickrate of zero or less" -/
  | invalidTickRate
  /-- "No common ancestor clock." -/
  | noCommonAncestor
  deriving DecidableEq, Repr

/-- src/src/Correlation.js: immutable correlation
(parentTime, childTime, initialError, errorGrowthRate). Defaults are zero. -/
structure Correlation where
  parentTime : ℚ
  childTime : ℚ
  initialError : ℚ
  errorGrowthRate : ℚ
  deriving DecidableEq, Repr

/-- src/src/Correlation.js `butWith`: a copy with any subset of the four
fields replaced (a `some` argument is a supplied override). -/
def Correlation.butWith (c : Correlation)
    (p? ct? ie? gr? : Option ℚ) : Correlation :=
  ⟨p?.getD c.parentTime, ct?.getD c.childTime,
   ie?.getD c.initialError, gr?.getD c.errorGrowthRate⟩

/-- One CorrelatedClock (src/src/main.js, 2017 variant) viewed against its
parent: the private fields `freq` (tick rate), `speed`, `corr`, plus the
parent's tick rate `parentFreq` (what `priv.parent.getTickRate()` returns). -/
structure CorrelatedClock where
  freq : ℚ
  speed : ℚ
  corr : Correlation
  parentFreq : ℚ
  deriving DecidableEq, Repr

/-- main.js lines 663-671, `CorrelatedClock.prototype.toParentTime`:
if speed is 0, return correlation.parentTime when `t` equals
correlation.childTime and the NaN sentinel (`none`) otherwise; else the
linear map. -/
def CorrelatedClock.toParentTime (c : CorrelatedClock) (t : ℚ) : Option ℚ :=
  if c.speed = 0 then
    if t = c.corr.childTime then some c.corr.parentTime else none
  else
    some (c.corr.parentTime + (t - c.corr.childTime) * c.parentFreq / c.freq / c.speed)

/-- main.js lines 676-679, `fromParentTime`:
childTime + (t - parentTime) * freq * speed / parent.getTickRate(). -/
def CorrelatedClock.fromParentTime (c : CorrelatedClock) (t : ℚ) : ℚ :=
  c.corr.childTime + (t - c.corr.parentTime) * c.freq * c.speed / c.parentFreq

/-- main.js lines 510-515, `now`: the same linear map applied to the
parent's current time (passed here as the argument `parentNow`). -/
def CorrelatedClock.now (c : CorrelatedClock) (parentNow : ℚ) : ℚ :=
  c.corr.childTime + (parentNow - c.corr.parentTime) * c.freq * c.speed / c.parentFreq

/-- main.js lines 786-792, `_errorAtTime`:
initialError + (|toParentTime(t) - parentTime| / parent.getTickRate()) * errorGrowthRate.
`none` when `toParentTime` yields the NaN sentinel (NaN propagates). -/
def CorrelatedClock.errorAtTime (c : CorrelatedClock) (t : ℚ) : Option ℚ :=
  (c.toParentTime t).map (fun pt =>
    c.corr.initialError + |pt - c.corr.parentTime| / c.parentFreq * c.corr.errorGrowthRate)

/-- main.js lines 572-580, `rebaseCorrelationAt`: replace the correlation by
`corr.butWith(parentTime = toParentTime(t), childTime = t,
initialError = _errorAtTime(t))`, leaving errorGrowthRate unchanged.
`none` models the correlation being contaminated by the NaN sentinel
(speed 0 and `t` not the correlation child time). -/
def CorrelatedClock.rebaseCorrelationAt (c : CorrelatedClock) (t : ℚ) :
    Option CorrelatedClock :=
  match c.toParentTime t, c.errorAtTime t with
  | some pt, some ie =>
      some ⟨c.freq, c.speed, c.corr.butWith (some pt) (some t) (some ie) none, c.parentFreq⟩
  | _, _ => none

/-- main.js lines 563-570, `setTickRate`: assigns the new tick rate with no
validation (the change event is irrelevant to the stored state). -/
def CorrelatedClock.setTickRate (c : CorrelatedClock) (newTickRate : ℚ) :
    CorrelatedClock :=
  ⟨newTickRate, c.speed, c.corr, c.parentFreq⟩

/-- Options object accepted by the CorrelatedClock constructor
(fields absent in JS are `none`). -/
structure CorrOptions where
  tickRate : Option ℚ
  speed : Option ℚ
  correlation : Option Correlation
  deriving DecidableEq, Repr

/-- main.js lines 454-503, the CorrelatedClock constructor: throws
"Cannot have tickrate of zero or less" when a tickRate option ≤ 0 is given;
defaults are tickRate 1000, speed 1, correlation (0,0,0,0). -/
def mkCorrelatedClock (parentFreq : ℚ) (options : Option CorrOptions) :
    Except ClockError CorrelatedClock :=
  let o := options.getD ⟨none, none, none⟩
  match o.tickRate with
  | some r =>
      if r ≤ 0 then Except.error ClockError.invalidTickRate
      else Except.ok ⟨r, o.speed.getD 1, o.correlation.getD ⟨0, 0, 0, 0⟩, parentFreq⟩
  | none => Except.ok ⟨1000, o.speed.getD 1, o.correlation.getD ⟨0, 0, 0, 0⟩, parentFreq⟩

/-- src/src/DateNowClock.js: the state relevant to construction. -/
structure DateNowClock where
  freq : ℚ
  maxFreqErrorPpm : ℚ
  deriving DecidableEq, Repr

/-- Options object accepted by the DateNowClock constructor. -/
structure DateNowOptions where
  tickRate : Option ℚ
  maxFreqErrorPpm : Option ℚ
  deriving DecidableEq, Repr

/-- DateNowClock.js lines 62-84, the constructor: throws
"Cannot have tickrate of zero or less" when a tickRate option ≤ 0 is given;
defaults are tickRate 1000, maxFreqErrorPpm 50. -/
def mkDateNowClock (options : Option DateNowOptions) :
    Except ClockError DateNowClock :=
  let o := options.getD ⟨none, none⟩
  match o.tickRate with
  | some r =>
      if r ≤ 0 then Except.error ClockError.invalidTickRate
      else Except.ok ⟨r, o.maxFreqErrorPpm.getD 50⟩
  | none => Except.ok ⟨1000, o.maxFreqErrorPpm.getD 50⟩

/-- A JavaScript number as produced by the quantify operations: a finite
value, positive or negative infinity, or NaN. -/
inductive JVal where
  | num (q : ℚ)
  | posInf
  | negInf
  | nan
  deriving DecidableEq, Repr

/-- `Math.abs` on a `JVal`. -/
def JVal.abs : JVal → JVal
  | JVal.num q => JVal.num |q|
  | JVal.posInf => JVal.posInf
  | JVal.negInf => JVal.posInf
  | JVal.nan => JVal.nan

/-- main.js lines 730-747, `quantifySignedChange`: positive (negative)
infinity when the new speed is greater (smaller) than the current speed;
otherwise the signed seconds difference between the new correlation and the
current mapping, computed in parent time when the speed is non-zero and in
child time when it is zero. -/
def CorrelatedClock.quantifySignedChange (c : CorrelatedClock)
    (newCorrelation : Correlation) (newSpeed : ℚ) : JVal :=
  if newSpeed ≠ c.speed then
    if newSpeed > c.speed then JVal.posInf else JVal.negInf
  else
    if newSpeed ≠ 0 then
      match c.toParentTime newCorrelation.childTime with
      | some ox => JVal.num ((newCorrelation.parentTime - ox) / c.parentFreq)
      | none => JVal.nan
    else
      JVal.num ((newCorrelation.childTime - c.fromParentTime newCorrelation.parentTime) / c.freq)

/-- main.js lines 763-765, `quantifyChange`:
`Math.abs(this.quantifySignedChange(newCorrelation, newSpeed))`. -/
def CorrelatedClock.quantifyChange (c : CorrelatedClock)
    (newCorrelation : Correlation) (newSpeed : ℚ) : JVal :=
  (c.quantifySignedChange newCorrelation newSpeed).abs

/-- The three event kinds a clock can emit. -/
inductive ClockEvent where
  | available
  | unavailable
  | change
  deriving DecidableEq, Repr

/-- The availability-relevant view of a clock (ClockBase.js): its own flag
`_availability`, and the own flags of its parent, grandparent, ..., root
(nearest first; the empty list means the clock has no parent). -/
structure AvailState where
  availabilityFlag : Bool
  ancestorFlags : List Bool
  deriving DecidableEq, Repr

/-- ClockBase.js lines 291-294, `isAvailable` of the parent chain: every
flag on the chain is true. -/
def isAvailableChain (flags : List Bool) : Bool := flags.all (fun b => b)

/-- ClockBase.js lines 307-323, `setAvailabilityFlag` (the documented
variant): compute whether the flag flips, AND that with the parent's
effective availability when a parent exists, store the new flag, and emit
`available`/`unavailable` accordingly. No `change` event is emitted. -/
def setAvailabilityFlag (s : AvailState) (availability : Bool) :
    AvailState × List ClockEvent :=
  let isChange0 := (s.availabilityFlag && !availability) || (!s.availabilityFlag && availability)
  let isChange := if s.ancestorFlags.isEmpty then isChange0
                  else isChange0 && isAvailableChain s.ancestorFlags
  (⟨availability, s.ancestorFlags⟩,
   if isChange then
     [if availability then ClockEvent.available else ClockEvent.unavailable]
   else [])

/-- One entry of a clock's timer registry (`priv.timerHandles[handle]`):
the target time `whenT` of the clock, and whether a host timer is armed
(`realHandle` present). -/
structure TimerEntry where
  whenT : ℚ
  armed : Bool
  deriving DecidableEq, Repr

/-- ClockBase.js lines 635-638: `numRootTicks = toRootTime(when) - root.now()`
(the argument `deltaRootTicks`, `none` when that difference is already NaN),
divided by the root speed unless the difference is zero; NaN (`none`) when
the root speed is zero and the difference is not. -/
def scheduleNumRootTicks (deltaRootTicks : Option ℚ) (rootSpeed : ℚ) : Option ℚ :=
  match deltaRootTicks with
  | none => none
  | some d => if d ≠ 0 then (if rootSpeed ≠ 0 then some (d / rootSpeed) else none) else some d

/-- ClockBase.js line 639: `millis = numRootTicks * (1000 / root.getTickRate())`,
with NaN (`none`) propagating. -/
def scheduleMillis (deltaRootTicks : Option ℚ) (rootSpeed rootTickRate : ℚ) : Option ℚ :=
  (scheduleNumRootTicks deltaRootTicks rootSpeed).map (fun n => n * (1000 / rootTickRate))

/-- ClockBase.js lines 613-648, `setAtTime`, restricted to its effect on the
timer registry: a host timer is armed iff the computed millis is not NaN
(line 641), and the entry is stored in the registry unconditionally
(line 645). -/
def setAtTime (registry : List TimerEntry) (whenT : ℚ)
    (deltaRootTicks : Option ℚ) (rootSpeed rootTickRate : ℚ) : List TimerEntry :=
  registry ++ [⟨whenT, (scheduleMillis deltaRootTicks rootSpeed rootTickRate).isSome⟩]

/-- ClockBase.js lines 651-679, `_rescheduleTimers`: every registered entry
is kept, its millis recomputed from the current mapping (`deltaOf` gives
`toRootTime(when) - root.now()` per target time), and its host timer
re-armed iff the recomputed millis is not NaN (lines 672-676). -/
def rescheduleTimers (registry : List TimerEntry) (deltaOf : ℚ → Option ℚ)
    (rootSpeed rootTickRate : ℚ) : List TimerEntry :=
  registry.map (fun e => ⟨e.whenT, (scheduleMillis (deltaOf e.whenT) rootSpeed rootTickRate).isSome⟩)

/-- A clock hierarchy node: a DateNowClock root, a CorrelatedClock, or an
OffsetClock, each carrying the unique numeric part of its `clock_N` id so
that structural equality models JavaScript object identity. -/
inductive Clock where
  | root (i : ℕ) (freq : ℚ)
  | corr (parent : Clock) (i : ℕ) (freq speed : ℚ) (correlation : Correlation)
  | offset (parent : Clock) (i : ℕ) (offsetMs : ℚ)
  deriving DecidableEq, Repr

/-- `getTickRate`: own rate for root and correlated clocks; an OffsetClock
returns its parent's tick rate (OffsetClock.js lines 143-145). -/
def Clock.getTickRate : Clock → ℚ
  | Clock.root _ f => f
  | Clock.corr _ _ f _ _ => f
  | Clock.offset p _ _ => p.getTickRate

/-- `getSpeed`: 1 for a root (ClockBase.js default, lines 222-224), the own
speed for a correlated clock, 1 for an offset clock (OffsetClock.js 129-131). -/
def Clock.getSpeed : Clock → ℚ
  | Clock.root _ _ => 1
  | Clock.corr _ _ _ s _ => s
  | Clock.offset _ _ _ => 1

/-- ClockBase.js lines 241-249, `getEffectiveSpeed`: the product of
`getSpeed` over the clock and all its ancestors. -/
def Clock.getEffectiveSpeed : Clock → ℚ
  | Clock.root _ _ => 1
  | Clock.corr p _ _ s _ => s * p.getEffectiveSpeed
  | Clock.offset p _ _ => 1 * p.getEffectiveSpeed

/-- `now` as a function of the host wall-clock milliseconds `wallMs`:
DateNowClock.js line 92 for roots (`Date.now() / 1000 * freq`), main.js
lines 510-515 for correlated clocks, OffsetClock.js lines 102-106 for
offset clocks. -/
def Clock.now : Clock → ℚ → ℚ
  | Clock.root _ f, wallMs => wallMs / 1000 * f
  | Clock.corr p _ f s co, wallMs =>
      co.childTime + (p.now wallMs - co.parentTime) * f * s / p.getTickRate
  | Clock.offset p i o, wallMs =>
      p.now wallMs + o * (Clock.offset p i o).getEffectiveSpeed * p.getTickRate / 1000

/-- `getRoot` (ClockBase.js lines 359-367): walk parents to the topmost. -/
def Clock.getRoot : Clock → Clock
  | Clock.root i f => Clock.root i f
  | Clock.corr p _ _ _ _ => p.getRoot
  | Clock.offset p _ _ => p.getRoot

/-- `getAncestry` (ClockBase.js lines 439-450): the list starting with the
clock itself and ending with the root. -/
def Clock.getAncestry : Clock → List Clock
  | Clock.root i f => [Clock.root i f]
  | Clock.corr p i f s co => Clock.corr p i f s co :: p.getAncestry
  | Clock.offset p i o => Clock.offset p i o :: p.getAncestry

/-- Single-step `toParentTime` of a hierarchy node. A root throws
("Clock has no parent.", DateNowClock.js 124-126) — modelled as `none`;
this case is unreachable in the ancestry walks proved below. Correlated
clocks follow main.js 663-671, offset clocks OffsetClock.js 245-248. -/
def Clock.toParentTime : Clock → ℚ → Option ℚ
  | Clock.root _ _, _ => none
  | Clock.corr p _ f s co, t =>
      if s = 0 then
        if t = co.childTime then some co.parentTime else none
      else
        some (co.parentTime + (t - co.childTime) * p.getTickRate / f / s)
  | Clock.offset p i o, t =>
      some (t - o * (Clock.offset p i o).getEffectiveSpeed * (Clock.offset p i o).getTickRate / 1000)

/-- Single-step `fromParentTime` of a hierarchy node. A root throws —
modelled as `none` (unreachable in the ancestry walks). Correlated clocks
follow main.js 676-679, offset clocks OffsetClock.js 253-256. -/
def Clock.fromParentTime : Clock → ℚ → Option ℚ
  | Clock.root _ _, _ => none
  | Clock.corr p _ f s co, t =>
      some (co.childTime + (t - co.parentTime) * f * s / p.getTickRate)
  | Clock.offset p i o, t =>
      some (t + o * (Clock.offset p i o).getEffectiveSpeed * (Clock.offset p i o).getTickRate / 1000)

/-- The common-tail-stripping loop of `toOtherClockTime` (ClockBase.js
lines 411-416), expressed on the reversed ancestries (so the loop that pops
equal last elements becomes stripping of a common head). Returns the two
surviving (still reversed) lists and the `common` flag, true iff at least
one shared ancestor was stripped. -/
def stripCommonTail : List Clock → List Clock → List Clock × List Clock × Bool
  | x :: xs, y :: ys =>
      if x = y then
        ((stripCommonTail xs ys).1, (stripCommonTail xs ys).2.1, true)
      else (x :: xs, y :: ys, false)
  | xs, ys => (xs, ys, false)

/-- ClockBase.js lines 406-433, `toOtherClockTime`: compute both ancestries,
strip the shared tail, throw "No common ancestor clock." when nothing was
shared; otherwise apply `toParentTime` up the surviving self chain
(self-first order) and `fromParentTime` down the reversed surviving other
chain, with the NaN sentinel propagating through both folds. -/
def Clock.toOtherClockTime (self other : Clock) (t : ℚ) :
    Except ClockError (Option ℚ) :=
  let res := stripCommonTail self.getAncestry.reverse other.getAncestry.reverse
  if res.2.2 then
    let up := res.1.reverse.foldl (fun acc c => acc.bind c.toParentTime) (some t)
    Except.ok (res.2.1.foldl (fun acc c => acc.bind c.fromParentTime) up)
  else
    Except.error ClockError.noCommonAncestor

/-- Concrete clock: parent tick rate 1000, tick rate 1000, speed 1,
correlation (50, 300), zero errors — the clock of the spec's rebase example. -/
def rebaseExampleClock : CorrelatedClock := ⟨1000, 1, ⟨50, 300, 0, 0⟩, 1000⟩

/-- Concrete clock with speed 2 used to witness the round-trip claims. -/
def speedTwoClock : CorrelatedClock := ⟨1000, 2, ⟨50, 300, 0, 0⟩, 1000⟩

/-- Concrete paused clock (speed 0) used to witness the paused-map claims. -/
def pausedClock : CorrelatedClock := ⟨1000, 0, ⟨50, 300, 0, 0⟩, 1000⟩

end DvbcssClocks

namespace DvbcssClocks

/-- C2: for every CorrelatedClock whose speed is non-zero (tick rates being
positive, per the library invariant), `fromParentTime (toParentTime t) = t`
exactly, in rational arithmetic. -/
theorem claim_C2 (c : CorrelatedClock) (t : ℚ)
    (hs : c.speed ≠ 0) (hf : 0 < c.freq) (hpf : 0 < c.parentFreq) :
    (c.toParentTime t).map c.fromParentTime = some t := by
  unfold CorrelatedClock.toParentTime
  rw [if_neg hs]
  simp only [Option.map_some']
  unfold CorrelatedClock.fromParentTime
  have hf' : c.freq ≠ 0 := ne_of_gt hf
  have hpf' : c.parentFreq ≠ 0 := ne_of_gt hpf
  congr 1
  field_simp
  ring

/-- Witness for C2 at the concrete clock with speed 2 and t = 7. -/
theorem claim_C2_witness :
    (speedTwoClock.toParentTime 7).map speedTwoClock.fromParentTime = some 7 :=
  claim_C2 speedTwoClock 7 (by decide) (by decide) (by decide)

/-- C3: with speed 0, `toParentTime t` returns the correlation parent time
when `t` equals the correlation child time, and the NaN sentinel (`none`,
never an exception) for every other `t`. -/
theorem claim_C3 (c : CorrelatedClock) (t : ℚ) (hs : c.speed = 0) :
    (t = c.corr.childTime → c.toParentTime t = some c.corr.parentTime)
    ∧ (t ≠ c.corr.childTime → c.toParentTime t = none) := by
  unfold CorrelatedClock.toParentTime
  rw [if_pos hs]
  constructor
  · intro h
    rw [if_pos h]
  · intro h
    rw [if_neg h]

/-- Witness for C3 at the concrete paused clock, both at the correlation
child time 300 and away from it. -/
theorem claim_C3_witness :
    pausedClock.toParentTime 300 = some 50 ∧ pausedClock.toParentTime 301 = none :=
  ⟨(claim_C3 pausedClock 300 (by decide)).1 (by decide),
   (claim_C3 pausedClock 301 (by decide)).2 (by decide)⟩

/-- Counterexample to C1 as stated: the default-constructed CorrelatedClock
(tick rate 1000) can be mutated by `setTickRate(0)` — which performs no
validation — into a clock whose tick rate is 0, violating tickRate > 0. -/
theorem claim_C1_counterexample :
    mkCorrelatedClock 1000 none = Except.ok ⟨1000, 1, ⟨0, 0, 0, 0⟩, 1000⟩
    ∧ ((⟨1000, 1, ⟨0, 0, 0, 0⟩, 1000⟩ : CorrelatedClock).setTickRate 0).freq ≤ 0 := by
  constructor
  · rfl
  · decide

/-- C1 (amended): constructing a CorrelatedClock or DateNowClock with a
tickRate option ≤ 0 fails with InvalidArgument, and every successful
construction yields tickRate > 0; but `CorrelatedClock.setTickRate` performs
no validation — it stores any value, including values ≤ 0. -/
theorem claim_C1 :
    (∀ (pf : ℚ) (o : CorrOptions) (r : ℚ), o.tickRate = some r → r ≤ 0 →
      mkCorrelatedClock pf (some o) = Except.error ClockError.invalidTickRate)
    ∧ (∀ (o : DateNowOptions) (r : ℚ), o.tickRate = some r → r ≤ 0 →
      mkDateNowClock (some o) = Except.error ClockError.invalidTickRate)
    ∧ (∀ (pf : ℚ) (opts : Option CorrOptions) (c : CorrelatedClock),
      mkCorrelatedClock pf opts = Except.ok c → 0 < c.freq)
    ∧ (∀ (opts : Option DateNowOptions) (d : DateNowClock),
      mkDateNowClock opts = Except.ok d → 0 < d.freq)
    ∧ (∀ (c : CorrelatedClock) (r : ℚ), (c.setTickRate r).freq = r) := by
  refine ⟨?_, ?_, ?_, ?_, ?_⟩
  · intro pf o r hr hle
    unfold mkCorrelatedClock
    simp only [Option.getD_some, hr, if_pos hle]
  · intro o r hr hle
    unfold mkDateNowClock
    simp only [Option.getD_some, hr, if_pos hle]
  · intro pf opts c hok
    simp only [mkCorrelatedClock] at hok
    split at hok
    · split at hok
      · simp at hok
      · rename_i hle
        cases hok
        exact lt_of_not_le hle
    · cases hok
      norm_num
  · intro opts d hok
    simp only [mkDateNowClock] at hok
    split at hok
    · split at hok
      · simp at hok
      · rename_i hle
        cases hok
        exact lt_of_not_le hle
    · cases hok
      norm_num
  · intro c r
    rfl

/-- Witness for C1 (amended) at concrete inputs: a CorrelatedClock
constructed with tickRate 0 fails, a DateNowClock constructed with
tickRate -5 fails, and setTickRate stores -1 unchecked. -/
theorem claim_C1_witness :
    mkCorrelatedClock 1000 (some ⟨some 0, none, none⟩)
      = Except.error ClockError.invalidTickRate
    ∧ mkDateNowClock (some ⟨some (-5), none⟩)
      = Except.error ClockError.invalidTickRate
    ∧ (speedTwoClock.setTickRate (-1)).freq = -1 :=
  ⟨claim_C1.1 1000 ⟨some 0, none, none⟩ 0 rfl (by norm_num),
   claim_C1.2.1 ⟨some (-5), none⟩ (-5) rfl (by norm_num),
   claim_C1.2.2.2.2 speedTwoClock (-1)⟩

/-- C4: when `toParentTime t` is defined, `rebaseCorrelationAt t` replaces
the correlation with (toParentTime(t), t, errorAtTime(t), unchanged
errorGrowthRate); afterwards the correlation child time is `t`, and when the
speed is non-zero `fromParentTime` (hence `now` and every reading) is
unchanged as a function; concretely, with parent tick rate 1000, own tick
rate 1000, correlation (50, 300) and zero errors, `rebaseCorrelationAt 400`
yields the correlation (150, 400, 0, 0). -/
theorem claim_C4 (c : CorrelatedClock) (t pt' : ℚ)
    (hpt : c.toParentTime t = some pt') (hf : 0 < c.freq) (hpf : 0 < c.parentFreq) :
    c.rebaseCorrelationAt t = some ⟨c.freq, c.speed,
      ⟨pt', t,
       c.corr.initialError + |pt' - c.corr.parentTime| / c.parentFreq * c.corr.errorGrowthRate,
       c.corr.errorGrowthRate⟩, c.parentFreq⟩
    ∧ (∀ c', c.rebaseCorrelationAt t = some c' → c'.corr.childTime = t)
    ∧ (c.speed ≠ 0 → ∀ c' x, c.rebaseCorrelationAt t = some c' →
        c'.fromParentTime x = c.fromParentTime x ∧ c'.now x = c.now x)
    ∧ rebaseExampleClock.rebaseCorrelationAt 400
        = some ⟨1000, 1, ⟨150, 400, 0, 0⟩, 1000⟩ := by
  have hreb : c.rebaseCorrelationAt t = some ⟨c.freq, c.speed,
      ⟨pt', t,
       c.corr.initialError + |pt' - c.corr.parentTime| / c.parentFreq * c.corr.errorGrowthRate,
       c.corr.errorGrowthRate⟩, c.parentFreq⟩ := by
    unfold CorrelatedClock.rebaseCorrelationAt CorrelatedClock.errorAtTime
    rw [hpt]
    rfl
  refine ⟨hreb, ?_, ?_, ?_⟩
  · intro c' hc'
    rw [hreb] at hc'
    cases hc'
    rfl
  · intro hs c' x hc'
    rw [hreb] at hc'
    cases hc'
    have hf' : c.freq ≠ 0 := ne_of_gt hf
    have hpf' : c.parentFreq ≠ 0 := ne_of_gt hpf
    have hptval : pt' = c.corr.parentTime
        + (t - c.corr.childTime) * c.parentFreq / c.freq / c.speed := by
      unfold CorrelatedClock.toParentTime at hpt
      rw [if_neg hs] at hpt
      exact (Option.some_injective _ hpt).symm
    constructor
    · unfold CorrelatedClock.fromParentTime
      simp only [hptval]
      field_simp
      ring
    · unfold CorrelatedClock.now
      simp only [hptval]
      field_simp
      ring
  · unfold rebaseExampleClock CorrelatedClock.rebaseCorrelationAt
      CorrelatedClock.errorAtTime CorrelatedClock.toParentTime Correlation.butWith
    norm_num

/-- Witness for C4 at the spec's concrete rebase example:
`toParentTime 400 = some 150` holds, and the rebase produces the
correlation (150, 400, 0, 0). -/
theorem claim_C4_witness :
    rebaseExampleClock.rebaseCorrelationAt 400
      = some ⟨1000, 1, ⟨150, 400, 0, 0⟩, 1000⟩ :=
  (claim_C4 rebaseExampleClock 400 150 (by norm_num [rebaseExampleClock,
    CorrelatedClock.toParentTime]) (by decide) (by decide)).2.2.2

/-- C5: `quantifySignedChange` returns positive infinity when the new speed
exceeds the current one and negative infinity when it is smaller; with equal
non-zero speeds it returns (newCorrelation.parentTime - toParentTime(newCorrelation.childTime)) / parent tick rate; with equal zero speeds it
returns (newCorrelation.childTime - fromParentTime(newCorrelation.parentTime)) / own tick rate; and `quantifyChange` is its absolute value. -/
theorem claim_C5 :
    (∀ (c : CorrelatedClock) (n : Correlation) (s : ℚ), c.speed < s →
      c.quantifySignedChange n s = JVal.posInf)
    ∧ (∀ (c : CorrelatedClock) (n : Correlation) (s : ℚ), s < c.speed →
      c.quantifySignedChange n s = JVal.negInf)
    ∧ (∀ (c : CorrelatedClock) (n : Correlation) (s pt' : ℚ), s = c.speed → s ≠ 0 →
      c.toParentTime n.childTime = some pt' →
      c.quantifySignedChange n s = JVal.num ((n.parentTime - pt') / c.parentFreq))
    ∧ (∀ (c : CorrelatedClock) (n : Correlation) (s : ℚ), s = c.speed → s = 0 →
      c.quantifySignedChange n s
        = JVal.num ((n.childTime - c.fromParentTime n.parentTime) / c.freq))
    ∧ (∀ (c : CorrelatedClock) (n : Correlation) (s : ℚ) (q : ℚ),
      c.quantifySignedChange n s = JVal.num q → c.quantifyChange n s = JVal.num |q|)
    ∧ (∀ (c : CorrelatedClock) (n : Correlation) (s : ℚ),
      c.quantifySignedChange n s = JVal.posInf ∨ c.quantifySignedChange n s = JVal.negInf →
      c.quantifyChange n s = JVal.posInf) := by
  refine ⟨?_, ?_, ?_, ?_, ?_, ?_⟩
  · intro c n s hlt
    unfold CorrelatedClock.quantifySignedChange
    rw [if_pos (ne_of_gt hlt), if_pos hlt]
  · intro c n s hlt
    unfold CorrelatedClock.quantifySignedChange
    rw [if_pos (ne_of_lt hlt), if_neg (not_lt_of_lt hlt)]
  · intro c n s pt' heq hne hpt
    unfold CorrelatedClock.quantifySignedChange
    rw [if_neg (by simp [heq]), if_pos hne, hpt]
  · intro c n s heq h0
    unfold CorrelatedClock.quantifySignedChange
    rw [if_neg (by simp [heq]), if_neg (by simp [h0])]
  · intro c n s q hq
    unfold CorrelatedClock.quantifyChange
    rw [hq]
    rfl
  · intro c n s hq
    unfold CorrelatedClock.quantifyChange
    rcases hq with hq | hq <;> rw [hq] <;> rfl

/-- Witness for C5 at concrete inputs on the clock with tick rate 1000,
speed 1, correlation (0,0): a larger new speed gives positive infinity, a
smaller one negative infinity, an unchanged speed with new correlation
(0, 5) gives -5/1000 signed and 5/1000 absolute, and a paused clock with
unchanged zero speed and new correlation (0, 5) gives (5 - 300)/1000. -/
theorem claim_C5_witness :
    (⟨1000, 1, ⟨0, 0, 0, 0⟩, 1000⟩ : CorrelatedClock).quantifySignedChange ⟨0, 0, 0, 0⟩ 2
      = JVal.posInf
    ∧ (⟨1000, 1, ⟨0, 0, 0, 0⟩, 1000⟩ : CorrelatedClock).quantifySignedChange ⟨0, 0, 0, 0⟩ 0
      = JVal.negInf
    ∧ (⟨1000, 1, ⟨0, 0, 0, 0⟩, 1000⟩ : CorrelatedClock).quantifySignedChange ⟨0, 5, 0, 0⟩ 1
      = JVal.num ((0 - 5) / 1000)
    ∧ (⟨1000, 1, ⟨0, 0, 0, 0⟩, 1000⟩ : CorrelatedClock).quantifyChange ⟨0, 5, 0, 0⟩ 1
      = JVal.num |(0 - 5) / (1000 : ℚ)|
    ∧ pausedClock.quantifySignedChange ⟨0, 5, 0, 0⟩ 0
      = JVal.num ((5 - pausedClock.fromParentTime 0) / 1000) := by
  refine ⟨?_, ?_, ?_, ?_, ?_⟩
  · exact claim_C5.1 _ _ 2 (by decide)
  · exact claim_C5.2.1 _ _ 0 (by decide)
  · exact claim_C5.2.2.1 _ ⟨0, 5, 0, 0⟩ 1 5 (by decide) (by decide)
      (by norm_num [CorrelatedClock.toParentTime])
  · exact claim_C5.2.2.2.2.1 _ ⟨0, 5, 0, 0⟩ 1 ((0 - 5) / 1000)
      (claim_C5.2.2.1 _ ⟨0, 5, 0, 0⟩ 1 5 (by decide) (by decide)
        (by norm_num [CorrelatedClock.toParentTime]))
  · exact claim_C5.2.2.2.1 pausedClock ⟨0, 5, 0, 0⟩ 0 (by decide) rfl

/-- C6: `setAvailabilityFlag v` emits `available` (v true) or `unavailable`
(v false) exactly when v differs from the previous own flag and the parent,
if any, is effectively available; flipping the flag under an unavailable
ancestor emits nothing, and no `change` event ever accompanies the flip. -/
theorem claim_C6 (s : AvailState) (v : Bool) :
    ((setAvailabilityFlag s v).2 =
      if (v ≠ s.availabilityFlag)
          ∧ (s.ancestorFlags = [] ∨ isAvailableChain s.ancestorFlags = true) then
        [if v then ClockEvent.available else ClockEvent.unavailable]
      else [])
    ∧ ClockEvent.change ∉ (setAvailabilityFlag s v).2
    ∧ (s.ancestorFlags ≠ [] → isAvailableChain s.ancestorFlags = false →
        (setAvailabilityFlag s v).2 = []) := by
  have hmain : (setAvailabilityFlag s v).2 =
      if (v ≠ s.availabilityFlag)
          ∧ (s.ancestorFlags = [] ∨ isAvailableChain s.ancestorFlags = true) then
        [if v then ClockEvent.available else ClockEvent.unavailable]
      else [] := by
    unfold setAvailabilityFlag
    rcases s with ⟨flag, anc⟩
    rcases anc with _ | ⟨b, rest⟩
    · cases flag <;> cases v <;> simp
    · cases flag <;> cases v <;>
        cases h : isAvailableChain (b :: rest) <;>
        simp [h]
  refine ⟨hmain, ?_, ?_⟩
  · rw [hmain]
    by_cases h : (v ≠ s.availabilityFlag)
        ∧ (s.ancestorFlags = [] ∨ isAvailableChain s.ancestorFlags = true)
    · rw [if_pos h]
      cases v <;> decide
    · rw [if_neg h]
      decide
  · intro hne hfalse
    rw [hmain, if_neg]
    rintro ⟨-, hor | hor⟩
    · exact hne hor
    · rw [hfalse] at hor
      cases hor

/-- Witness for C6: a clock whose own flag is true but whose only ancestor
is unavailable emits nothing when its flag is flipped to false. -/
theorem claim_C6_witness :
    (setAvailabilityFlag ⟨true, [false]⟩ false).2 = [] :=
  (claim_C6 ⟨true, [false]⟩ false).2.2 (by decide) (by decide)

/-- C7: in `setAtTime` (and on every reschedule) the computed delay is 0 ms
when `toRootTime(when) - root.now()` is zero; when the root speed is 0 and
that difference is non-zero the computed millis is the NaN sentinel, no host
timer is armed, yet the entry remains in the registry; and in both paths a
host timer is armed exactly when the computed millis is not NaN. -/
theorem claim_C7 :
    (∀ (s f : ℚ), 0 < f → scheduleMillis (some 0) s f = some 0)
    ∧ (∀ (d f : ℚ), d ≠ 0 → scheduleMillis (some d) 0 f = none)
    ∧ (∀ (reg : List TimerEntry) (w d f : ℚ), d ≠ 0 →
        TimerEntry.mk w false ∈ setAtTime reg w (some d) 0 f)
    ∧ (∀ (reg : List TimerEntry) (w : ℚ) (delta : Option ℚ) (s f : ℚ),
        ∃ e : TimerEntry, setAtTime reg w delta s f = reg ++ [e] ∧ e.whenT = w
          ∧ (e.armed = true ↔ scheduleMillis delta s f ≠ none))
    ∧ (∀ (reg : List TimerEntry) (deltaOf : ℚ → Option ℚ) (s f : ℚ),
        (rescheduleTimers reg deltaOf s f).map TimerEntry.whenT = reg.map TimerEntry.whenT
        ∧ ∀ e, e ∈ rescheduleTimers reg deltaOf s f →
            (e.armed = true ↔ scheduleMillis (deltaOf e.whenT) s f ≠ none)) := by
  have hzero : ∀ (s f : ℚ), scheduleMillis (some 0) s f = some 0 := by
    intro s f
    unfold scheduleMillis scheduleNumRootTicks
    norm_num
  have hnan : ∀ (d f : ℚ), d ≠ 0 → scheduleMillis (some d) 0 f = none := by
    intro d f hd
    unfold scheduleMillis scheduleNumRootTicks
    simp [hd]
  refine ⟨fun s f _ => hzero s f, hnan, ?_, ?_, ?_⟩
  · intro reg w d f hd
    unfold setAtTime
    rw [hnan d f hd]
    simp
  · intro reg w delta s f
    refine ⟨⟨w, (scheduleMillis delta s f).isSome⟩, rfl, rfl, ?_⟩
    exact Option.isSome_iff_ne_none
  · intro reg deltaOf s f
    constructor
    · unfold rescheduleTimers
      rw [List.map_map]
      rfl
    · intro e he
      unfold rescheduleTimers at he
      rw [List.mem_map] at he
      obtain ⟨e₀, -, rfl⟩ := he
      exact Option.isSome_iff_ne_none

/-- Witness for C7 at concrete inputs: zero delta gives 0 ms with root tick
rate 1000; delta 5 under root speed 0 gives NaN; and the corresponding
setAtTime call leaves the unarmed entry (when 7) in the registry. -/
theorem claim_C7_witness :
    scheduleMillis (some 0) 1 1000 = some 0
    ∧ scheduleMillis (some 5) 0 1000 = none
    ∧ TimerEntry.mk 7 false ∈ setAtTime [] 7 (some 5) 0 1000 :=
  ⟨claim_C7.1 1 1000 (by norm_num),
   claim_C7.2.1 5 1000 (by norm_num),
   claim_C7.2.2.1 [] 7 5 1000 (by norm_num)⟩

/-- The ancestry of a clock, reversed, starts with the clock's root. -/
theorem ancestry_reverse_eq (c : Clock) :
    ∃ l, c.getAncestry.reverse = c.getRoot :: l := by
  induction c with
  | root i f => exact ⟨[], rfl⟩
  | corr p i f s co ih =>
      obtain ⟨l, hl⟩ := ih
      exact ⟨l ++ [Clock.corr p i f s co],
        by simp [Clock.getAncestry, Clock.getRoot, hl]⟩
  | offset p i o ih =>
      obtain ⟨l, hl⟩ := ih
      exact ⟨l ++ [Clock.offset p i o],
        by simp [Clock.getAncestry, Clock.getRoot, hl]⟩

/-- The root of a clock is a member of its ancestry. -/
theorem getRoot_mem_ancestry (c : Clock) : c.getRoot ∈ c.getAncestry := by
  induction c with
  | root i f => simp [Clock.getAncestry, Clock.getRoot]
  | corr p i f s co ih =>
      simp only [Clock.getAncestry, Clock.getRoot, List.mem_cons]
      exact Or.inr ih
  | offset p i o ih =>
      simp only [Clock.getAncestry, Clock.getRoot, List.mem_cons]
      exact Or.inr ih

/-- Every member of a clock's ancestry has the same root as the clock. -/
theorem mem_ancestry_getRoot {c d : Clock} (h : d ∈ c.getAncestry) :
    d.getRoot = c.getRoot := by
  induction c with
  | root i f =>
      simp only [Clock.getAncestry, List.mem_singleton] at h
      subst h
      rfl
  | corr p i f s co ih =>
      simp only [Clock.getAncestry, List.mem_cons] at h
      rcases h with rfl | h
      · rfl
      · exact ih h
  | offset p i o ih =>
      simp only [Clock.getAncestry, List.mem_cons] at h
      rcases h with rfl | h
      · rfl
      · exact ih h

/-- Two clocks share a member of their ancestries iff they have the same
root. -/
theorem shared_ancestor_iff (a b : Clock) :
    (∃ c, c ∈ a.getAncestry ∧ c ∈ b.getAncestry) ↔ a.getRoot = b.getRoot := by
  constructor
  · rintro ⟨c, hca, hcb⟩
    rw [← mem_ancestry_getRoot hca, mem_ancestry_getRoot hcb]
  · intro h
    refine ⟨a.getRoot, getRoot_mem_ancestry a, ?_⟩
    rw [h]
    exact getRoot_mem_ancestry b

/-- Stripping with distinct heads leaves both lists intact, flag false. -/
theorem stripCommonTail_cons_ne {x y : Clock} (h : x ≠ y) (xs ys : List Clock) :
    stripCommonTail (x :: xs) (y :: ys) = (x :: xs, y :: ys, false) := by
  simp [stripCommonTail, h]

/-- Stripping with equal heads pops them and sets the flag. -/
theorem stripCommonTail_cons_eq (x : Clock) (xs ys : List Clock) :
    stripCommonTail (x :: xs) (x :: ys)
      = ((stripCommonTail xs ys).1, (stripCommonTail xs ys).2.1, true) := by
  simp [stripCommonTail]

/-- Stripping a list against itself consumes everything; the flag records
that the list was non-empty. -/
theorem stripCommonTail_self (l : List Clock) :
    stripCommonTail l l = ([], [], !l.isEmpty) := by
  induction l with
  | nil => rfl
  | cons x xs ih =>
      rw [stripCommonTail_cons_eq, ih]
      rfl

/-- The `common` flag of the stripping pass is true iff the two clocks have
the same root. -/
theorem strip_flag_iff (a b : Clock) :
    (stripCommonTail a.getAncestry.reverse b.getAncestry.reverse).2.2 = true
      ↔ a.getRoot = b.getRoot := by
  obtain ⟨l₁, hl₁⟩ := ancestry_reverse_eq a
  obtain ⟨l₂, hl₂⟩ := ancestry_reverse_eq b
  rw [hl₁, hl₂]
  by_cases hr : a.getRoot = b.getRoot
  · rw [hr, stripCommonTail_cons_eq]
    simp [hr]
  · rw [stripCommonTail_cons_ne hr]
    simp [hr]

/-- `toOtherClockTime` written out over the stripping pass. -/
theorem toOtherClockTime_eq (a b : Clock) (t : ℚ) :
    a.toOtherClockTime b t =
      (if (stripCommonTail a.getAncestry.reverse b.getAncestry.reverse).2.2 = true then
        Except.ok
          ((stripCommonTail a.getAncestry.reverse b.getAncestry.reverse).2.1.foldl
            (fun acc c => acc.bind c.fromParentTime)
            ((stripCommonTail a.getAncestry.reverse b.getAncestry.reverse).1.reverse.foldl
              (fun acc c => acc.bind c.toParentTime) (some t)))
      else Except.error ClockError.noCommonAncestor) := rfl

/-- C8: `toOtherClockTime` fails with NoCommonAncestor exactly when the two
ancestries (by identity) share no clock; otherwise it returns the input
mapped by `toParentTime` up the surviving self chain and `fromParentTime`
down the reversed surviving other chain. -/
theorem claim_C8 (a b : Clock) (t : ℚ) :
    (a.toOtherClockTime b t = Except.error ClockError.noCommonAncestor ↔
      ∀ c, c ∈ a.getAncestry → c ∉ b.getAncestry)
    ∧ ((∃ c, c ∈ a.getAncestry ∧ c ∈ b.getAncestry) →
      a.toOtherClockTime b t = Except.ok
        ((stripCommonTail a.getAncestry.reverse b.getAncestry.reverse).2.1.foldl
          (fun acc c => acc.bind c.fromParentTime)
          ((stripCommonTail a.getAncestry.reverse b.getAncestry.reverse).1.reverse.foldl
            (fun acc c => acc.bind c.toParentTime) (some t)))) := by
  have hiff : a.toOtherClockTime b t = Except.error ClockError.noCommonAncestor
      ↔ a.getRoot ≠ b.getRoot := by
    rw [toOtherClockTime_eq]
    by_cases hflag :
        (stripCommonTail a.getAncestry.reverse b.getAncestry.reverse).2.2 = true
    · rw [if_pos hflag]
      constructor
      · intro h
        simp at h
      · intro h
        exact absurd ((strip_flag_iff a b).mp hflag) h
    · rw [if_neg hflag]
      constructor
      · intro _ hr
        exact hflag ((strip_flag_iff a b).mpr hr)
      · intro _
        rfl
  have hforall : (∀ c, c ∈ a.getAncestry → c ∉ b.getAncestry)
      ↔ ¬∃ c, c ∈ a.getAncestry ∧ c ∈ b.getAncestry := by
    constructor
    · rintro h ⟨c, h1, h2⟩
      exact h c h1 h2
    · intro h c h1 h2
      exact h ⟨c, h1, h2⟩
  refine ⟨?_, ?_⟩
  · exact hiff.trans (hforall.trans (not_congr (shared_ancestor_iff a b))).symm
  · intro hsh
    have hflag := (strip_flag_iff a b).mpr ((shared_ancestor_iff a b).mp hsh)
    rw [toOtherClockTime_eq, if_pos hflag]

/-- Witness for C8: the correlated clock under root 1 has no common ancestor
with root 0 (error), while converting from that clock to its own root
succeeds and yields 5. -/
theorem claim_C8_witness :
    (Clock.root 0 1000).toOtherClockTime
        (Clock.corr (Clock.root 1 1000) 2 1000 1 ⟨0, 0, 0, 0⟩) 5
      = Except.error ClockError.noCommonAncestor
    ∧ (Clock.corr (Clock.root 0 1000) 3 1000 1 ⟨0, 0, 0, 0⟩).toOtherClockTime
        (Clock.root 0 1000) 5
      = Except.ok (some 5) := by
  constructor
  · exact (claim_C8 (Clock.root 0 1000)
      (Clock.corr (Clock.root 1 1000) 2 1000 1 ⟨0, 0, 0, 0⟩) 5).1.mpr (by decide)
  · have h := (claim_C8 (Clock.corr (Clock.root 0 1000) 3 1000 1 ⟨0, 0, 0, 0⟩)
      (Clock.root 0 1000) 5).2 ⟨Clock.root 0 1000, by decide, by decide⟩
    rw [h]
    norm_num [stripCommonTail, Clock.getAncestry, Clock.toParentTime, Clock.getTickRate]

/-- C9: an OffsetClock reads its parent's time shifted by
offset · effectiveSpeed · parent tick rate / 1000; with parent tick rate
1000 and parent speed 1 an offset of 50 ms shifts now() by 50 ticks, and
with parent speed 0 the shift vanishes. -/
theorem claim_C9 :
    (∀ (p : Clock) (i : ℕ) (off wall : ℚ),
      (Clock.offset p i off).now wall
        = p.now wall + off * (Clock.offset p i off).getEffectiveSpeed * p.getTickRate / 1000)
    ∧ (∀ wall : ℚ,
      (Clock.offset (Clock.corr (Clock.root 0 1000) 1 1000 1 ⟨0, 0, 0, 0⟩) 2 50).now wall
        = (Clock.corr (Clock.root 0 1000) 1 1000 1 ⟨0, 0, 0, 0⟩).now wall + 50)
    ∧ (∀ wall : ℚ,
      (Clock.offset (Clock.corr (Clock.root 0 1000) 1 1000 0 ⟨0, 0, 0, 0⟩) 2 50).now wall
        = (Clock.corr (Clock.root 0 1000) 1 1000 0 ⟨0, 0, 0, 0⟩).now wall) := by
  refine ⟨fun p i off wall => rfl, ?_, ?_⟩
  · intro wall
    simp [Clock.now, Clock.getEffectiveSpeed, Clock.getSpeed, Clock.getTickRate]
  · intro wall
    simp [Clock.now, Clock.getEffectiveSpeed, Clock.getSpeed, Clock.getTickRate]

/-- C10: converting a time from a clock to itself is the identity and never
raises: the two ancestries are identical, so the stripping consumes both
chains entirely and the folds are over empty chains. -/
theorem claim_C10 (c : Clock) (t : ℚ) :
    c.toOtherClockTime c t = Except.ok (some t) := by
  obtain ⟨l, hl⟩ := ancestry_reverse_eq c
  rw [toOtherClockTime_eq, stripCommonTail_self, hl]
  rfl

end DvbcssClocks
